import Mathlib

/-!
Verification of the tabular ETL pipeline in `demo.py`.

The program loads a table (pandas `DataFrame`) from one of several
sources, cleans it (`clean_data`), optionally sorts it, diagnoses
domain-constraint violations (`check_domain_constraints`), transforms it
(`transform_data`: standard scaling of numeric columns plus one-hot
encoding of categorical columns via `pd.concat`), and returns the pair
of the cleaned and the transformed table (`perform_analysis`).

Embedding choices, matching pandas semantics:
  * a `Dataset` is a list of labelled rows.  The label is the pandas
    row index (an integer): `drop_duplicates`, `dropna` and
    `sort_values` all preserve the labels of surviving rows, and
    `pd.concat(..., axis=1)` aligns its arguments on those labels
    (identical indexes are kept as-is, otherwise the sorted union of
    the labels is used and missing positions are filled with NaN).
  * cell values of an input table are `Val` (rational number, string,
    or missing).  The transformed table holds real-valued cells
    (`RVal`), because standard scaling divides by a square root.
  * the spelling dictionary of `SpellChecker` is external data, not
    code of the repository; `clean_data` is parametrised by the
    correction function `corr : String → Option String`
    (`corr w = none` models `spell.correction(word) is None`).
-/

inductive Val where
  | num (q : ℚ)
  | str (s : String)
  | na
deriving DecidableEq, Repr

inductive RVal where
  | num (x : ℝ)
  | str (s : String)
  | na

/-- Column dtype category of a pandas column: numeric (`int`/`float`)
or object (textual/categorical). -/
inductive DType where
  | numD
  | objD
deriving DecidableEq, Repr

/-- A pandas `DataFrame`: named columns with dtypes, and rows carrying
their integer index label. -/
structure Dataset where
  cols : List String
  dtypes : List DType
  rows : List (Nat × List Val)
deriving DecidableEq, Repr

/-- A `DataFrame` with real-valued numeric cells (output of the
transformation step). -/
structure DatasetR where
  cols : List String
  dtypes : List DType
  rows : List (Nat × List RVal)

/-- Index of a named column (first occurrence), as pandas column
lookup. -/
def colIdx : List String → String → Option Nat
  | [], _ => none
  | c0 :: rest, c => if c0 = c then some 0 else (colIdx rest c).map (· + 1)

/-- Columns of `df.select_dtypes(include=[float, int])`. -/
def numericCols (d : Dataset) : List String :=
  ((d.cols.zip d.dtypes).filter (fun p => p.2 = DType.numD)).map Prod.fst

/-- Columns of `df.select_dtypes(include=[object])`. -/
def objectCols (d : Dataset) : List String :=
  ((d.cols.zip d.dtypes).filter (fun p => p.2 = DType.objD)).map Prod.fst

/-- Well-formedness of a `DataFrame`: dtypes align with columns,
column names are distinct, and every row has one cell per column.
Real (sanely constructed) pandas frames satisfy this. -/
def wf (d : Dataset) : Prop :=
  d.dtypes.length = d.cols.length ∧ d.cols.Nodup ∧
    ∀ r ∈ d.rows, (Prod.snd r).length = d.cols.length

instance (d : Dataset) : Decidable (wf d) := by
  unfold wf; infer_instance

/-- Source `data.drop_duplicates()`: keep the first row with each cell
content, preserving order and labels.  pandas compares the full row
content (`NaN` compares equal to `NaN` here, as in pandas). -/
def dropDupAux : List (List Val) → List (Nat × List Val) → List (Nat × List Val)
  | _, [] => []
  | seen, r :: rs =>
    if r.2 ∈ seen then dropDupAux seen rs
    else r :: dropDupAux (r.2 :: seen) rs

def drop_duplicates (d : Dataset) : Dataset :=
  { d with rows := dropDupAux [] d.rows }

/-- Source `data.dropna()`: drop every row containing a missing value. -/
def dropna (d : Dataset) : Dataset :=
  { d with rows := d.rows.filter (fun r => !(r.2.contains Val.na)) }

/-- Python `str.split()` with no argument: split on runs of
whitespace, no empty tokens. -/
def pySplitAux : List Char → List Char → List String
  | cur, [] => if cur.isEmpty then [] else [String.mk cur.reverse]
  | cur, c :: cs =>
    if c.isWhitespace then
      (if cur.isEmpty then pySplitAux [] cs
       else String.mk cur.reverse :: pySplitAux [] cs)
    else pySplitAux (c :: cur) cs

def pySplit (s : String) : List String :=
  pySplitAux [] s.data

/-- Characters kept by `re.sub(r'[^A-Za-z0-9\s]+', '', x)`:
ASCII letters, ASCII digits, whitespace. -/
def keepChar (c : Char) : Bool :=
  c.isAlpha || c.isDigit || c.isWhitespace

/-- The spell-correction pass on one cell (first per-column loop of
`clean_data`): split into tokens, replace each token by its correction
when one exists, rejoin with single spaces.  Non-string cells are left
unchanged (missing cells are skipped by the `pd.notnull` guard; in the
pipeline they are already gone after `dropna`). -/
def spellCell (corr : String → Option String) : Val → Val
  | Val.str s =>
      Val.str (String.intercalate " " ((pySplit s).map (fun w => (corr w).getD w)))
  | v => v

/-- The character-stripping pass on one cell (second per-column loop of
`clean_data`). -/
def stripCell : Val → Val
  | Val.str s => Val.str (String.mk (s.data.filter keepChar))
  | v => v

/-- Apply a cell function to every cell of every object-dtype column
(`for col in data.select_dtypes(include=[object]).columns: ...`). -/
def mapObjCells (f : Val → Val) (d : Dataset) : Dataset :=
  { d with rows := d.rows.map (fun r =>
      (r.1, List.zipWith (fun ty v => if ty = DType.objD then f v else v) d.dtypes r.2)) }

/-- The two text-normalisation loops of `clean_data` (spelling
correction, then unwanted-character removal). -/
def normPass (corr : String → Option String) (d : Dataset) : Dataset :=
  mapObjCells stripCell (mapObjCells (spellCell corr) d)

/-- Source `clean_data`: drop duplicates, drop rows with missing values, then
spell-correct and strip every object-column cell. -/
def clean_data (corr : String → Option String) (d : Dataset) : Dataset :=
  normPass corr (dropna (drop_duplicates d))

/-- Comparison used as sort key order (non-missing values).  The source
(`sort_values`) compares numbers to numbers and strings to strings;
comparing mixed types raises `TypeError` there, modelled by an
arbitrary order (no theorem relies on mixed-type keys). -/
def valLeB : Val → Val → Bool
  | Val.num a, Val.num b => decide (a ≤ b)
  | Val.str a, Val.str b => !decide (b < a)
  | Val.num _, Val.str _ => true
  | Val.str _, Val.num _ => false
  | Val.na, _ => false
  | _, Val.na => true

/-- Source `data.sort_values(by=column_name, ascending=ascending)`.
Rows with a missing sort key go last (`na_position='last'`), the rest
are ordered by the key, direction per `ascending`.  pandas' default
`kind='quicksort'` does not guarantee tie order; the model uses a
stable insertion sort (they agree whenever keys are distinct).  A
missing column raises `KeyError` in the source; modelled as the
identity — every use in this file guards on column membership. -/
def sort_data (d : Dataset) (c : String) (ascending : Bool) : Dataset :=
  match colIdx d.cols c with
  | none => d
  | some j =>
    let key : Nat × List Val → Val := fun r => r.2[j]?.getD Val.na
    let nonNa := d.rows.filter (fun r => !(key r == Val.na))
    let naRows := d.rows.filter (fun r => key r == Val.na)
    let sorted := List.insertionSort
      (fun r1 r2 =>
        (if ascending then valLeB (key r1) (key r2) else valLeB (key r2) (key r1)) = true)
      nonNa
    { d with rows := sorted ++ naRows }

/-- Outcome of `check_domain_constraints`'s printed report. -/
inductive DomReport where
  | violations (column : String) (offending : List (Nat × List Val))
  | noViolations (column : String)
deriving DecidableEq, Repr

/-- Source `check_domain_constraints(data, column_name, valid_values)`:
computes `data[~data[column_name].isin(valid_values)]` and prints a
report.  The function never writes to `data`; the returned pair is
(the frame as it stands after the call, the report).  A missing column
raises `KeyError` (`Except.error`). -/
def check_domain_constraints (d : Dataset) (c : String) (valid : List Val) :
    Dataset × Except String DomReport :=
  match colIdx d.cols c with
  | none => (d, Except.error "KeyError")
  | some j =>
    let invalid := d.rows.filter (fun r => !(valid.contains (r.2[j]?.getD Val.na)))
    (d, Except.ok (if invalid.isEmpty then DomReport.noViolations c
                   else DomReport.violations c invalid))

/-! ### The transformer (`transform_data`) -/

def rvalToR : RVal → ℝ
  | RVal.num x => x
  | _ => 0

def embedVal : Val → RVal
  | Val.num q => RVal.num (q : ℝ)
  | Val.str s => RVal.str s
  | Val.na => RVal.na

/-- The frame with its numeric cells read as reals (scaling divides by
a square root, so scaled cells live in `ℝ`). -/
def embedR (d : Dataset) : DatasetR :=
  { cols := d.cols, dtypes := d.dtypes,
    rows := d.rows.map (fun r => (r.1, r.2.map embedVal)) }

/-- Cells of column `j`, in row order. -/
def colCellsR (d : DatasetR) (j : Nat) : List RVal :=
  d.rows.map (fun r => r.2[j]?.getD RVal.na)

/-- Is this cell a present number (not missing, not text)? -/
def isNumR : RVal → Bool
  | RVal.num _ => true
  | _ => false

/-- Real values of the present (non-missing) cells of column `j`, in
row order.  `StandardScaler` accepts NaN input
(`force_all_finite='allow-nan'`): missing values are disregarded when
fitting the per-column mean and variance and maintained by the
transform, so statistics are computed over the present cells only. -/
def colPresentR (d : DatasetR) (j : Nat) : List ℝ :=
  ((colCellsR d j).filter isNumR).map rvalToR

noncomputable def meanR (l : List ℝ) : ℝ := l.sum / l.length

/-- Population variance, as `StandardScaler` computes it. -/
noncomputable def varR (l : List ℝ) : ℝ :=
  ((l.map (fun x => (x - meanR l) ^ 2)).sum) / l.length

/-- The `StandardScaler` per-column divisor: the standard deviation,
except that an exactly-zero deviation is replaced by `1`
(`_handle_zeros_in_scale`), so constant columns are not divided by 0. -/
noncomputable def scaleOf (l : List ℝ) : ℝ :=
  if Real.sqrt (varR l) = 0 then 1 else Real.sqrt (varR l)

/-- One cell of a numeric-dtype column under the fitted scaler: a
number becomes `(x - mean) / scale` of its column's present values; a
missing cell stays missing (NaN in, NaN out). -/
noncomputable def scaleCell (d : DatasetR) (j : Nat) : RVal → RVal
  | RVal.num x => RVal.num ((x - meanR (colPresentR d j)) / scaleOf (colPresentR d j))
  | v => v

/-- One row under the fitted scaler: numeric-dtype cells are scaled
(missing ones maintained), other cells are untouched. -/
noncomputable def scaleRow (d : DatasetR) (cells : List RVal) : List RVal :=
  (List.range d.cols.length).map (fun j =>
    if d.dtypes[j]? = some DType.numD then scaleCell d j (cells[j]?.getD RVal.na)
    else cells[j]?.getD RVal.na)

/-- Source line `data[numerical_cols] = scaler.fit_transform(data[numerical_cols])`:
every numeric-dtype cell is replaced by `(x - mean) / scale` of its
column; other cells and the row labels are untouched.  This assignment
writes into the caller's frame in place. -/
noncomputable def applyScaler (d : DatasetR) : DatasetR :=
  { d with rows := d.rows.map (fun r => (r.1, scaleRow d r.2)) }

/-- Indices of the retained (non-object) columns of a frame, in
column order. -/
def keepIdxR (d : DatasetR) : List Nat :=
  (List.range d.cols.length).filter (fun j => !(d.dtypes[j]? == some DType.objD))

/-- One row with its object-column cells removed. -/
def dropRow (d : DatasetR) (cells : List RVal) : List RVal :=
  (keepIdxR d).map (fun j => cells[j]?.getD RVal.na)

/-- Source `data.drop(categorical_cols, axis=1)`: keep the non-object columns
(positionally), labels unchanged. -/
def dropObjCols (d : DatasetR) : DatasetR :=
  { cols := (keepIdxR d).map (fun j => d.cols[j]?.getD "")
    dtypes := (keepIdxR d).map (fun j => d.dtypes[j]?.getD DType.numD)
    rows := d.rows.map (fun r => (r.1, dropRow d r.2)) }

def lookupRow (rows : List (Nat × List RVal)) (i : Nat) : Option (List RVal) :=
  (rows.find? (fun r => r.1 == i)).map Prod.snd

/-- Source `pd.concat([a, b], axis=1)`: when the two indexes are identical
the rows are glued side by side in place; otherwise pandas aligns on
the sorted union of the labels, filling missing positions with NaN. -/
def concatAligned (a b : DatasetR) : DatasetR :=
  let la := a.rows.map Prod.fst
  let lb := b.rows.map Prod.fst
  if la = lb then
    { cols := a.cols ++ b.cols, dtypes := a.dtypes ++ b.dtypes,
      rows := List.zipWith (fun ra rb => (ra.1, ra.2 ++ rb.2)) a.rows b.rows }
  else
    let labels := (List.range (((la ++ lb).foldr max 0) + 1)).filter
      (fun i => la.contains i || lb.contains i)
    { cols := a.cols ++ b.cols, dtypes := a.dtypes ++ b.dtypes,
      rows := labels.map (fun i =>
        (i, ((lookupRow a.rows i).getD (List.replicate a.cols.length RVal.na)) ++
            ((lookupRow b.rows i).getD (List.replicate b.cols.length RVal.na)))) }

/-- Indices of the object-dtype columns of the input frame, in column
order. -/
def objIdxQ (d : Dataset) : List Nat :=
  (List.range d.cols.length).filter (fun j => d.dtypes[j]? == some DType.objD)

/-- Indices of the retained (non-object) columns of the input frame,
in column order. -/
def keepIdxQ (d : Dataset) : List Nat :=
  (List.range d.cols.length).filter (fun j => !(d.dtypes[j]? == some DType.objD))

/-- Does some object-dtype column mix string and number cells?  This
is the one case where the encoder's category computation
(`_unique_python`'s `sorted`) raises a `TypeError`.  Uniform string
columns, uniform numeric columns, and missing cells (which become
their own category) are all accepted by `OneHotEncoder`. -/
def mixedObjCol (d : Dataset) : Bool :=
  (objIdxQ d).any (fun j =>
    (d.rows.any (fun r => match r.2[j]?.getD Val.na with
      | Val.str _ => true
      | _ => false)) &&
    (d.rows.any (fun r => match r.2[j]?.getD Val.na with
      | Val.num _ => true
      | _ => false)))

/-- The `OneHotEncoder` categories of one column (`_unique_python`):
the distinct observed non-missing values sorted ascending, with the
missing value appended as its own final category when present. -/
def categoriesV (d : Dataset) (j : Nat) : List Val :=
  List.insertionSort (fun a b => valLeB a b = true)
    (((d.rows.map (fun r => r.2[j]?.getD Val.na)).eraseDups).filter (fun v => !(v == Val.na)))
  ++ (if Val.na ∈ (d.rows.map (fun r => r.2[j]?.getD Val.na)).eraseDups then [Val.na] else [])

/-- Python `str()` of a category value, as used inside the generated
feature names (`f"{col}_{category}"`).  A missing value prints as
`nan`; exact float formatting is outside the modelled fragment (no
claim touches numeric category names). -/
def valRepr : Val → String
  | Val.str s => s
  | Val.num q => if q.den = 1 then toString q.num else toString q
  | Val.na => "nan"

/-- Feature names `encoder.get_feature_names_out(categorical_cols)`:
one per (categorical column, category), in order. -/
def featureNamesV (d : Dataset) : List String :=
  (objIdxQ d).flatMap (fun j =>
    (categoriesV d j).map (fun v => (d.cols[j]?.getD "") ++ "_" ++ valRepr v))

/-- One encoded row: `1` in the observed category's indicator column,
`0` elsewhere, for each categorical column in order.  A missing cell
matches the missing-value category. -/
def encRowQ (d : Dataset) (cells : List Val) : List RVal :=
  (objIdxQ d).flatMap (fun j =>
    (categoriesV d j).map (fun v => RVal.num (if cells[j]?.getD Val.na = v then 1 else 0)))

/-- The dense encoded frame
`pd.DataFrame(encoder.fit_transform(data[categorical_cols]),
columns=encoder.get_feature_names_out(categorical_cols))`: rows in
input order with a fresh default index `0..n-1`.  The encoder runs on
the categorical columns of the already-scaled frame, but the scaler
leaves object-dtype cells untouched (`colCellsR_applyScaler_obj`), so
it is defined here on the input frame's values, where cell equality is
decidable.  With zero categorical columns it succeeds with an `(n, 0)`
block: the per-column `_check_X` path never enforces a feature
minimum. -/
def encodeOneHotQ (d : Dataset) : DatasetR :=
  { cols := featureNamesV d
    dtypes := (objIdxQ d).flatMap (fun j => (categoriesV d j).map (fun _ => DType.numD))
    rows := (d.rows.map (fun r => encRowQ d r.2)).enum }

/-- Source `transform_data(data)`.  The returned pair is (the post-state of
the argument frame, the returned frame): line 75's column assignment
mutates the caller's frame in place, so the argument object ends up
scaled even though the function's return value is a fresh frame.
`StandardScaler.fit_transform` raises only on an empty design matrix
(no rows, or no numeric columns — its whole-array `check_array`
enforces one sample and one feature); NaN numeric input is accepted
(disregarded in fit, maintained in transform).  The encoder accepts
zero categorical columns (its `(n, 0)` block contributes nothing, so
the function then returns the scaled numeric frame) and raises only
when an object column mixes strings and numbers, which its category
sort cannot compare. -/
noncomputable def transform_data (d : Dataset) : Except String (DatasetR × DatasetR) :=
  if d.rows.isEmpty ∨ (numericCols d).isEmpty then
    Except.error "ValueError: StandardScaler on an empty design matrix"
  else if mixedObjCol d = true then
    Except.error "TypeError: unorderable mixed string and number categories"
  else
    let scaled := applyScaler (embedR d)
    Except.ok (scaled, concatAligned (dropObjCols scaled) (encodeOneHotQ d))

/-! ### The orchestrator (`perform_analysis`) -/

/-- The cleaned frame as it stands just before the transform step:
`clean_data`, then — when a `name` column exists — the ascending sort. -/
def cleanSort (corr : String → Option String) (d : Dataset) : Dataset :=
  let c0 := clean_data corr d
  if "name" ∈ c0.cols then sort_data c0 "name" true else c0

/-- Source `perform_analysis(data)`: clean, optionally sort by `name`,
optionally report on `some_column` (a pure report, see C9), then
transform.  The first component of the result is the `cleaned_data`
object as returned — i.e. after `transform_data` mutated it in place —
and the second is `transformed_data`. -/
noncomputable def perform_analysis (corr : String → Option String) (d : Dataset) :
    Except String (DatasetR × DatasetR) :=
  let c1 := cleanSort corr d
  let _report :=
    if "some_column" ∈ c1.cols then
      some (check_domain_constraints c1 "some_column"
        [Val.str "Value1", Val.str "Value2", Val.str "Value3"]).2
    else none
  transform_data c1

/-! ### The API loader (`load_api`) -/

/-- A JSON value, as produced by `response.json()`. -/
inductive JsonVal where
  | obj (fields : List (String × JsonVal))
  | arr (elems : List JsonVal)
  | jstr (s : String)
  | jnum (q : ℚ)
  | jbool (b : Bool)
  | jnull

/-- The possible outcomes of `requests.get(api_url, timeout=10)`. -/
inductive HttpOutcome where
  | success (status : Nat) (body : JsonVal)
  | timeout
  | connFailure

def startsWithChars : List Char → List Char → Bool
  | [], _ => true
  | _ :: _, [] => false
  | a :: as, b :: bs => a == b && startsWithChars as bs

def hasSubChars : List Char → List Char → Bool
  | pat, [] => pat.isEmpty
  | pat, c :: cs => startsWithChars pat (c :: cs) || hasSubChars pat cs

/-- Python's `'data' in data` on the decoded JSON value: key membership
for a dict, element membership for a list, substring test for a string,
and an uncaught `TypeError` for a number, boolean or `None` — the
`except` clauses of `load_api` only catch `requests` exceptions. -/
def pyContainsData : JsonVal → Except String Bool
  | JsonVal.obj fs => Except.ok (fs.any (fun kv => kv.1 == "data"))
  | JsonVal.arr es => Except.ok (es.any (fun e =>
      match e with
      | JsonVal.jstr s => s == "data"
      | _ => false))
  | JsonVal.jstr s => Except.ok (hasSubChars "data".data s.data)
  | _ => Except.error "TypeError: argument of type is not iterable"

def lookupKey (fs : List (String × JsonVal)) (k : String) : Option JsonVal :=
  (fs.find? (fun kv => kv.1 == k)).map Prod.snd

def primCell : JsonVal → Option Val
  | JsonVal.jnum q => some (Val.num q)
  | JsonVal.jstr s => some (Val.str s)
  | JsonVal.jnull => some Val.na
  | _ => none

def rowObj : JsonVal → Option (List (String × JsonVal))
  | JsonVal.obj fs => some fs
  | _ => none

/-- Column names of `pd.DataFrame(list_of_dicts)`: the union of the
row keys in order of first appearance. -/
def jsonCols (rowsJ : List (List (String × JsonVal))) : List String :=
  rowsJ.foldl (fun acc fs =>
    fs.foldl (fun acc2 kv => if acc2.contains kv.1 then acc2 else acc2 ++ [kv.1]) acc) []

/-- Inferred dtype of one built column: numeric when every present cell
is a number and at least one is (an all-missing column is `object`),
`object` otherwise. -/
def inferDType (cv : List Val) : DType :=
  if cv.all (fun x => x == Val.na) then DType.objD
  else if cv.all (fun x =>
    x == Val.na || (match x with | Val.num _ => true | _ => false)) then DType.numD
  else DType.objD

/-- Source `pd.DataFrame(data['data'])` for a list of flat row objects: keys
become columns (missing keys become NaN), the index is the default
`0..n-1`.  Rows that are not objects, and nested or boolean cell
values, are outside the modelled fragment and yield an error. -/
def toDataFrame : JsonVal → Except String Dataset
  | JsonVal.arr es =>
    match es.mapM rowObj with
    | none => Except.error "ValueError: DataFrame rows are not all objects (unmodelled)"
    | some rowsJ =>
      let cols := jsonCols rowsJ
      match rowsJ.mapM (fun fs => cols.mapM (fun k =>
          match lookupKey fs k with
          | none => some Val.na
          | some jv => primCell jv)) with
      | none => Except.error "unmodelled cell value (nested or boolean)"
      | some cellRows =>
        let dtypes := (List.range cols.length).map (fun j =>
          inferDType (cellRows.map (fun r => r[j]?.getD Val.na)))
        Except.ok { cols := cols, dtypes := dtypes, rows := cellRows.enum }
  | _ => Except.error "ValueError: DataFrame constructor (unmodelled argument)"

/-- Source `load_api(api_url)`, as a function of the HTTP outcome.
`Except.ok none` is the fail-soft `return None` path, `Except.ok (some df)`
the successful path, `Except.error` an exception escaping the function
(only `requests` exceptions are caught). -/
def load_api (o : HttpOutcome) : Except String (Option Dataset) :=
  match o with
  | HttpOutcome.timeout => Except.ok none
  | HttpOutcome.connFailure => Except.ok none
  | HttpOutcome.success status body =>
    if status ≠ 200 then Except.ok none
    else
      match pyContainsData body with
      | Except.error e => Except.error e
      | Except.ok false => Except.ok none
      | Except.ok true =>
        match body with
        | JsonVal.obj fs =>
          match lookupKey fs "data" with
          | some v => (toDataFrame v).map some
          | none => Except.error "unreachable: membership found the key"
        | JsonVal.arr _ => Except.error "TypeError: list indices must be integers or slices, not str"
        | JsonVal.jstr _ => Except.error "TypeError: string indices must be integers"
        | _ => Except.error "unreachable: scalar membership already raised"

/-! ### Accessors and predicates used by the theorems -/

/-- Cell of the `i`-th row (positionally) in the named column. -/
def cellQ (d : Dataset) (i : Nat) (c : String) : Option Val :=
  match colIdx d.cols c, d.rows[i]? with
  | some j, some r => some (r.2[j]?.getD Val.na)
  | _, _ => none

/-- The labels (pandas index) of a frame. -/
def labelsOf (d : Dataset) : List Nat := d.rows.map Prod.fst

def labelsOfR (d : DatasetR) : List Nat := d.rows.map Prod.fst

/-- A fresh frame: default index `0..n-1`. -/
def labelsDefault (d : Dataset) : Prop :=
  labelsOf d = List.range d.rows.length

instance (d : Dataset) : Decidable (labelsDefault d) := by
  unfold labelsDefault; infer_instance

/-- Present-value reading of the named column of a transformed frame
(first matching column name, as pandas column lookup): the non-missing
numeric cells, as pandas reductions such as `mean` and `var` see the
column (NaN cells are skipped). -/
def colPresentN (d : DatasetR) (c : String) : List ℝ :=
  match colIdx d.cols c with
  | some j => colPresentR d j
  | none => []

noncomputable def colMeanN (d : DatasetR) (c : String) : ℝ := meanR (colPresentN d c)

/-- Population variance of the column's present values, the convention
`StandardScaler` itself standardises to. -/
noncomputable def colVarN (d : DatasetR) (c : String) : ℝ := varR (colPresentN d c)

/-- A correction function with no suggestion for any token
(`spell.correction(word) is None` everywhere); §4.2 of the spec calls
this out as a supported dictionary behaviour. -/
def corrNone : String → Option String := fun _ => none

/-- A correction function that accepts every token as already correct. -/
def corrId : String → Option String := fun w => some w

/-- No row of the frame contains a missing value. -/
def noNA (d : Dataset) : Prop := ∀ r ∈ d.rows, Val.na ∉ Prod.snd r

instance (d : Dataset) : Decidable (noNA d) := by
  unfold noNA; infer_instance

/-- The combined effect of the two text-normalisation loops on one row. -/
def normRow (corr : String → Option String) (tys : List DType) (cells : List Val) : List Val :=
  List.zipWith (fun ty v => if ty = DType.objD then stripCell v else v) tys
    (List.zipWith (fun ty v => if ty = DType.objD then spellCell corr v else v) tys cells)

/-! ### Spec-side descriptions of the transformer's output

These definitions restate, from the spec's words, what one transformed
row should hold; the refinement theorems compare them with
`transform_data`'s output. -/

/-- Names of the retained (non-object) columns, in order. -/
def nonObjNamesQ (d : Dataset) : List String :=
  (keepIdxQ d).map (fun j => d.cols[j]?.getD "")

/-- One non-object cell after scaling, as a function of the input
cell: a number is standardised against its column's present values, a
missing cell stays missing. -/
noncomputable def numScaleVal (dR : DatasetR) (j : Nat) : Val → RVal
  | Val.num q => RVal.num (((q : ℝ) - meanR (colPresentR dR j)) / scaleOf (colPresentR dR j))
  | v => embedVal v

/-- The scaled numeric cells carried by one input row (missing cells
stay missing). -/
noncomputable def scaledRowQ (d : Dataset) (cells : List Val) : List RVal :=
  (keepIdxQ d).map (fun j => numScaleVal (embedR d) j (cells[j]?.getD Val.na))

/-- Claim C3's property at one input frame: the transformed frame has
one row per input row, and row `i` holds the scaled numeric cells of
input row `i` followed by its indicator cells. -/
def transformRowAligned (d : Dataset) : Prop :=
  ∀ t, transform_data d = Except.ok t →
    (Prod.snd t).rows.length = d.rows.length ∧
    ∀ (i : Nat) (r : Nat × List Val), d.rows[i]? = some r →
      ∃ r' : Nat × List RVal, (Prod.snd t).rows[i]? = some r' ∧
        Prod.snd r' = scaledRowQ d (Prod.snd r) ++ encRowQ d (Prod.snd r)

/-- Claim C1's property at one input frame: the `cleaned` component
returned by `perform_analysis` is exactly the Cleaner's output (plus
the optional sort), untouched by the transform step. -/
def cleanedIndependent (corr : String → Option String) (d : Dataset) : Prop :=
  ∀ p, perform_analysis corr d = Except.ok p → Prod.fst p = embedR (cleanSort corr d)

/-! ### Concrete frames used by counterexamples and witnesses -/

/-- Two rows whose text cells differ only in stripped punctuation. -/
def exDup : Dataset :=
  { cols := ["t"], dtypes := [DType.objD],
    rows := [(0, [Val.str "a!"]), (1, [Val.str "a?"])] }

/-- Rows `[A, B, A]` over one numeric column. -/
def exW6 : Dataset :=
  { cols := ["x"], dtypes := [DType.numD],
    rows := [(0, [Val.num 1]), (1, [Val.num 2]), (2, [Val.num 1])] }

/-- A frame whose second row has a missing value. -/
def exW6b : Dataset :=
  { cols := ["x"], dtypes := [DType.numD],
    rows := [(0, [Val.num 1]), (1, [Val.na])] }

/-- A frame already fixed by cleaning. -/
def exW7 : Dataset :=
  { cols := ["t"], dtypes := [DType.objD], rows := [(0, [Val.str "ab"])] }

/-- One numeric and one object column, fresh index; scaling sends the
numeric column `[0, 2]` to `[-1, 1]`. -/
def exC1 : Dataset :=
  { cols := ["a", "b"], dtypes := [DType.numD, DType.objD],
    rows := [(0, [Val.num 0, Val.str "p"]), (1, [Val.num 2, Val.str "q"])] }

/-- A frame whose index has a gap (labels 0 and 2), exactly what
cleaning produces after dropping the middle row of a fresh frame. -/
def exC3 : Dataset :=
  { cols := ["n", "c"], dtypes := [DType.numD, DType.objD],
    rows := [(0, [Val.num 0, Val.str "x"]), (2, [Val.num 2, Val.str "y"])] }

/-- The spec's one-hot example `[x, y, x]`, next to a numeric column. -/
def exC3w : Dataset :=
  { cols := ["n", "c"], dtypes := [DType.numD, DType.objD],
    rows := [(0, [Val.num 0, Val.str "x"]), (1, [Val.num 0, Val.str "y"]),
             (2, [Val.num 0, Val.str "x"])] }

/-- A zero-variance numeric column next to an object column. -/
def exC8 : Dataset :=
  { cols := ["a", "c"], dtypes := [DType.numD, DType.objD],
    rows := [(0, [Val.num 5, Val.str "x"]), (1, [Val.num 5, Val.str "y"])] }

/-- The spec's standardisation example `[1, 2, 3]`, next to an object
column. -/
def exC8w : Dataset :=
  { cols := ["a", "c"], dtypes := [DType.numD, DType.objD],
    rows := [(0, [Val.num 1, Val.str "x"]), (1, [Val.num 2, Val.str "y"]),
             (2, [Val.num 3, Val.str "z"])] }

/-! ### List lemmas for the cleaner -/

theorem mem_zipWith_extract {α β γ : Type} {g : α → β → γ} :
    ∀ {as : List α} {bs : List β} {x : γ}, x ∈ List.zipWith g as bs →
      ∃ a b, a ∈ as ∧ b ∈ bs ∧ x = g a b := by
  intro as
  induction as with
  | nil => intro bs x h; simp at h
  | cons a as ih =>
    intro bs x h
    cases bs with
    | nil => simp at h
    | cons b bs =>
      rw [List.zipWith_cons_cons, List.mem_cons] at h
      rcases h with h | h
      · exact ⟨a, b, List.mem_cons_self .., List.mem_cons_self .., h⟩
      · obtain ⟨a', b', ha, hb, hx⟩ := ih h
        exact ⟨a', b', List.mem_cons_of_mem _ ha, List.mem_cons_of_mem _ hb, hx⟩

theorem spellCell_na {corr : String → Option String} {v : Val}
    (h : spellCell corr v = Val.na) : v = Val.na := by
  cases v <;> simp [spellCell] at h ⊢

theorem stripCell_na {v : Val} (h : stripCell v = Val.na) : v = Val.na := by
  cases v <;> simp [stripCell] at h ⊢

theorem dropna_noNA (d : Dataset) : noNA (dropna d) := by
  intro r hr
  simp only [dropna, List.mem_filter] at hr
  simpa using hr.2

theorem mapObjCells_noNA (f : Val → Val) (hf : ∀ v, f v = Val.na → v = Val.na)
    (d : Dataset) (h : noNA d) : noNA (mapObjCells f d) := by
  intro r hr
  simp only [mapObjCells, List.mem_map] at hr
  obtain ⟨r0, hr0, rfl⟩ := hr
  intro hna
  obtain ⟨ty, v, _, hv, hx⟩ := mem_zipWith_extract hna
  have hvne : v ≠ Val.na := fun e => h r0 hr0 (e ▸ hv)
  by_cases hty : ty = DType.objD
  · rw [hty] at hx
    simp at hx
    exact hvne (hf v hx.symm)
  · simp [hty] at hx
    exact hvne hx.symm

theorem clean_noNA (corr : String → Option String) (d : Dataset) :
    noNA (clean_data corr d) := by
  unfold clean_data normPass
  exact mapObjCells_noNA _ (fun v => stripCell_na) _
    (mapObjCells_noNA _ (fun v => spellCell_na) _ (dropna_noNA _))

theorem dropDupAux_sublist (rs : List (Nat × List Val)) :
    ∀ seen, List.Sublist (dropDupAux seen rs) rs := by
  induction rs with
  | nil => intro seen; simp [dropDupAux]
  | cons r rs ih =>
    intro seen
    by_cases h : r.2 ∈ seen
    · rw [dropDupAux, if_pos h]
      exact (ih seen).cons r
    · rw [dropDupAux, if_neg h]
      exact (ih (r.2 :: seen)).cons₂ r

theorem dropDupAux_spec (rs : List (Nat × List Val)) :
    ∀ seen, ((dropDupAux seen rs).map Prod.snd).Nodup ∧
      ∀ x ∈ (dropDupAux seen rs).map Prod.snd, x ∉ seen := by
  induction rs with
  | nil => intro seen; simp [dropDupAux]
  | cons r rs ih =>
    intro seen
    by_cases h : r.2 ∈ seen
    · simpa [dropDupAux, h] using ih seen
    · obtain ⟨ihn, ihs⟩ := ih (r.2 :: seen)
      simp only [dropDupAux, if_neg h, List.map_cons, List.nodup_cons]
      refine ⟨⟨fun hmem => ?_, ihn⟩, ?_⟩
      · exact (ihs _ hmem) (List.mem_cons_self ..)
      · intro x hx
        rcases List.mem_cons.mp hx with rfl | hx
        · exact h
        · exact fun hs => (ihs x hx) (List.mem_cons_of_mem _ hs)

theorem dropDupAux_id (rs : List (Nat × List Val)) :
    ∀ seen, (∀ r ∈ rs, Prod.snd r ∉ seen) → (rs.map Prod.snd).Nodup →
      dropDupAux seen rs = rs := by
  induction rs with
  | nil => intro seen _ _; rfl
  | cons r rs ih =>
    intro seen hseen hnodup
    simp only [List.map_cons, List.nodup_cons] at hnodup
    rw [dropDupAux, if_neg (hseen r (List.mem_cons_self ..))]
    congr 1
    refine ih _ (fun r' hr' => ?_) hnodup.2
    intro hmem
    rcases List.mem_cons.mp hmem with he | hs
    · exact hnodup.1 (he ▸ List.mem_map_of_mem Prod.snd hr')
    · exact hseen r' (List.mem_cons_of_mem _ hr') hs

theorem drop_duplicates_id (d : Dataset) (h : (d.rows.map Prod.snd).Nodup) :
    drop_duplicates d = d := by
  cases d with
  | mk cols dtypes rows =>
    simp only [drop_duplicates]
    congr 1
    exact dropDupAux_id rows [] (by simp) h

theorem dropna_id (d : Dataset) (h : noNA d) : dropna d = d := by
  cases d with
  | mk cols dtypes rows =>
    simp only [dropna]
    congr 1
    refine List.filter_eq_self.mpr (fun r hr => ?_)
    have := h r hr
    simpa using this

theorem clean_data_sublist (corr : String → Option String) (d : Dataset) :
    ∃ kept, List.Sublist kept d.rows ∧
      (clean_data corr d).rows = kept.map (fun r =>
        (r.1, List.zipWith (fun ty v => if ty = DType.objD then stripCell v else v) d.dtypes
          (List.zipWith (fun ty v => if ty = DType.objD then spellCell corr v else v) d.dtypes r.2))) := by
  refine ⟨(dropna (drop_duplicates d)).rows, ?_, ?_⟩
  · exact (List.filter_sublist _).trans (dropDupAux_sublist d.rows [])
  · simp [clean_data, normPass, mapObjCells, List.map_map, dropna, drop_duplicates]

theorem zipWith_keep_of_no_obj (f : Val → Val) :
    ∀ (tys : List DType) (vs : List Val), tys.length = vs.length →
      (∀ ty ∈ tys, ty ≠ DType.objD) →
      List.zipWith (fun ty v => if ty = DType.objD then f v else v) tys vs = vs := by
  intro tys
  induction tys with
  | nil =>
    intro vs h _
    cases vs with
    | nil => rfl
    | cons v vs => simp at h
  | cons ty tys ih =>
    intro vs h hobj
    cases vs with
    | nil => simp at h
    | cons v vs =>
      rw [List.zipWith_cons_cons, if_neg (hobj ty (List.mem_cons_self ..)),
        ih vs (by simpa using h) (fun t ht => hobj t (List.mem_cons_of_mem _ ht))]

theorem dtypes_no_obj_of_objectCols_nil :
    ∀ (cs : List String) (ts : List DType), ts.length = cs.length →
      ((cs.zip ts).filter (fun p => p.2 = DType.objD)).map Prod.fst = [] →
      ∀ ty ∈ ts, ty ≠ DType.objD := by
  intro cs
  induction cs with
  | nil =>
    intro ts h _ ty hty
    cases ts with
    | nil => simp at hty
    | cons t ts => simp at h
  | cons c cs ih =>
    intro ts h hf ty hty
    cases ts with
    | nil => simp at hty
    | cons t ts =>
      by_cases ht : t = DType.objD
      · rw [List.zip_cons_cons, List.filter_cons, if_pos (by simpa using ht)] at hf
        simp at hf
      · rcases List.mem_cons.mp hty with rfl | hmem
        · exact ht
        · rw [List.zip_cons_cons, List.filter_cons, if_neg (by simpa using ht)] at hf
          exact ih ts (by simpa using h) hf ty hmem

theorem mapObjCells_id_of_no_obj (f : Val → Val) (d : Dataset) (hw : wf d)
    (hobj : objectCols d = []) : mapObjCells f d = d := by
  obtain ⟨hlen, _, hrows⟩ := hw
  have hno : ∀ ty ∈ d.dtypes, ty ≠ DType.objD :=
    dtypes_no_obj_of_objectCols_nil d.cols d.dtypes hlen hobj
  have hX : d.rows.map (fun r =>
      (r.1, List.zipWith (fun ty v => if ty = DType.objD then f v else v) d.dtypes r.2))
      = d.rows := by
    have hpt : ∀ r ∈ d.rows, (r.1,
        List.zipWith (fun ty v => if ty = DType.objD then f v else v) d.dtypes r.2) = id r := by
      intro r hr
      rw [zipWith_keep_of_no_obj f d.dtypes r.2 (by rw [hlen, hrows r hr]) hno]
      exact Prod.mk.eta
    rw [List.map_congr_left hpt, List.map_id]
  show { d with rows := _ } = d
  rw [hX]

theorem wf_drop_duplicates (d : Dataset) (h : wf d) : wf (drop_duplicates d) := by
  obtain ⟨h1, h2, h3⟩ := h
  exact ⟨h1, h2, fun r hr => h3 r ((dropDupAux_sublist d.rows []).subset hr)⟩

theorem wf_dropna (d : Dataset) (h : wf d) : wf (dropna d) := by
  obtain ⟨h1, h2, h3⟩ := h
  exact ⟨h1, h2, fun r hr => h3 r ((List.filter_sublist _).subset hr)⟩

theorem objectCols_drop_duplicates (d : Dataset) :
    objectCols (drop_duplicates d) = objectCols d := rfl

theorem objectCols_dropna (d : Dataset) : objectCols (dropna d) = objectCols d := rfl

/-- C2 (counterexample).  The claim also asserts that the cleaned frame
has no duplicate rows; text normalisation maps the two distinct rows
`"a!"`, `"a?"` of `exDup` both to `"a"`, so the cleaned frame has two
identical rows (no missing values, but a duplicate). -/
theorem c2_counterexample :
    ¬ (noNA (clean_data corrNone exDup) ∧
       ((clean_data corrNone exDup).rows.map Prod.snd).Nodup) := by
  decide

/-- C2 (amended).  After cleaning, no row contains a missing value in
any column; and when the frame has no textual column (so the
duplicate-reintroducing text passes are inert) no row is an exact
duplicate of another. -/
theorem c2_clean_invariants : ∀ (corr : String → Option String) (d : Dataset), wf d →
    noNA (clean_data corr d) ∧
    (objectCols d = [] → ((clean_data corr d).rows.map Prod.snd).Nodup) := by
  intro corr d hw
  refine ⟨clean_noNA corr d, fun hobj => ?_⟩
  have h2 : wf (dropna (drop_duplicates d)) := wf_dropna _ (wf_drop_duplicates d hw)
  have hobj1 : objectCols (dropna (drop_duplicates d)) = [] := hobj
  have hnd : (((dropna (drop_duplicates d)).rows).map Prod.snd).Nodup := by
    have hd := (dropDupAux_spec d.rows []).1
    exact List.Nodup.sublist ((List.filter_sublist _).map _) hd
  rw [clean_data, normPass, mapObjCells_id_of_no_obj _ _ h2 hobj1,
    mapObjCells_id_of_no_obj _ _ h2 hobj1]
  exact hnd

/-- C2 (witness): on a duplicate-free numeric frame both amended
invariants hold. -/
theorem c2_witness :
    noNA (clean_data corrNone exW6) ∧
    ((clean_data corrNone exW6).rows.map Prod.snd).Nodup :=
  ⟨(c2_clean_invariants corrNone exW6 (by decide)).1,
   (c2_clean_invariants corrNone exW6 (by decide)).2 (by decide)⟩

/-- C7 (counterexample).  Cleaning `exDup` once yields two identical
rows `"a"`; cleaning the result removes the duplicate, so the Cleaner
is not idempotent. -/
theorem c7_counterexample :
    clean_data corrNone (clean_data corrNone exDup) ≠ clean_data corrNone exDup := by
  decide

/-- C7 (amended).  The Cleaner is idempotent on every frame whose
cleaned form has pairwise-distinct rows and is a fixed point of the
text-normalisation passes; in general a second clean can differ,
because normalisation may create new duplicate rows. -/
theorem c7_idempotent_of_stable : ∀ (corr : String → Option String) (d : Dataset),
    ((clean_data corr d).rows.map Prod.snd).Nodup →
    normPass corr (clean_data corr d) = clean_data corr d →
    clean_data corr (clean_data corr d) = clean_data corr d := by
  intro corr d hnd hfix
  have hna : noNA (clean_data corr d) := clean_noNA corr d
  calc clean_data corr (clean_data corr d)
      = normPass corr (dropna (drop_duplicates (clean_data corr d))) := rfl
    _ = clean_data corr d := by
        rw [drop_duplicates_id _ hnd, dropna_id _ hna, hfix]

/-- C7 (witness): a one-row frame of a correctly spelled, already
stripped word is cleaned to itself twice over. -/
theorem c7_witness :
    clean_data corrId (clean_data corrId exW7) = clean_data corrId exW7 :=
  c7_idempotent_of_stable corrId exW7 (by decide) (by decide)

/-- C6 (confirmed).  First part: on rows `[A, B, A]` (distinct,
complete, already normalised — e.g. numeric — rows) the Cleaner keeps
`[A, B]`, first occurrence first.  Second part: a row containing a
missing value never survives cleaning. -/
theorem c6_dedup_and_completeness :
    (∀ (corr : String → Option String) (cols : List String) (tys : List DType)
        (la lb lc : Nat) (A B : List Val),
        A ≠ B → Val.na ∉ A → Val.na ∉ B →
        normRow corr tys A = A → normRow corr tys B = B →
        clean_data corr { cols := cols, dtypes := tys, rows := [(la, A), (lb, B), (lc, A)] }
          = { cols := cols, dtypes := tys, rows := [(la, A), (lb, B)] }) ∧
    (∀ (corr : String → Option String) (d : Dataset) (lab : Nat) (cells : List Val),
        (lab, cells) ∈ d.rows → Val.na ∈ cells →
        ∀ lab2, (lab2, cells) ∉ (clean_data corr d).rows) := by
  constructor
  · intro corr cols tys la lb lc A B hAB hA hB hnA hnB
    have hBA : ¬ (B = A) := fun e => hAB e.symm
    have h1 : drop_duplicates
        { cols := cols, dtypes := tys, rows := [(la, A), (lb, B), (lc, A)] }
        = { cols := cols, dtypes := tys, rows := [(la, A), (lb, B)] } := by
      simp [drop_duplicates, dropDupAux, hBA]
    have h2 : dropna { cols := cols, dtypes := tys, rows := [(la, A), (lb, B)] }
        = { cols := cols, dtypes := tys, rows := [(la, A), (lb, B)] } := by
      refine dropna_id _ ?_
      intro r hr
      rcases List.mem_cons.mp hr with rfl | hr
      · exact hA
      · rcases List.mem_cons.mp hr with rfl | hr
        · exact hB
        · simp at hr
    calc clean_data corr { cols := cols, dtypes := tys, rows := [(la, A), (lb, B), (lc, A)] }
        = normPass corr { cols := cols, dtypes := tys, rows := [(la, A), (lb, B)] } := by
          rw [clean_data, h1, h2]
      _ = { cols := cols, dtypes := tys,
            rows := [(la, normRow corr tys A), (lb, normRow corr tys B)] } := rfl
      _ = { cols := cols, dtypes := tys, rows := [(la, A), (lb, B)] } := by rw [hnA, hnB]
  · intro corr d lab cells _ hna lab2 hmem2
    exact (clean_noNA corr d _ hmem2) hna

/-- C6 (witness): the concrete `[A, B, A]` instance with `A = [1]`,
`B = [2]`, and a concrete missing-value row that disappears. -/
theorem c6_witness :
    clean_data corrNone exW6
      = { cols := ["x"], dtypes := [DType.numD],
          rows := [(0, [Val.num 1]), (1, [Val.num 2])] } ∧
    (1, [Val.na]) ∉ (clean_data corrNone exW6b).rows :=
  ⟨c6_dedup_and_completeness.1 corrNone ["x"] [DType.numD] 0 1 2 [Val.num 1] [Val.num 2]
     (by decide) (by decide) (by decide) (by decide) (by decide),
   c6_dedup_and_completeness.2 corrNone exW6b 1 [Val.na] (by decide) (by decide) 1⟩

/-- C9 (confirmed).  The domain check returns the frame unchanged —
it never removes, corrects or flags a row — and its report is clean
exactly when every cell of the named column is a permitted value. -/
theorem c9_purely_diagnostic : ∀ (d : Dataset) (c : String) (valid : List Val),
    (check_domain_constraints d c valid).1 = d ∧
    (∀ j, colIdx d.cols c = some j →
      ((check_domain_constraints d c valid).2 = Except.ok (DomReport.noViolations c) ↔
        ∀ r ∈ d.rows, (Prod.snd r)[j]?.getD Val.na ∈ valid)) := by
  intro d c valid
  constructor
  · rcases h : colIdx d.cols c with _ | j <;> simp [check_domain_constraints, h]
  · intro j hj
    simp only [check_domain_constraints, hj]
    by_cases he :
        (d.rows.filter (fun r => !(valid.contains (r.2[j]?.getD Val.na)))).isEmpty = true
    · rw [if_pos he]
      rw [List.isEmpty_iff, List.filter_eq_nil_iff] at he
      constructor
      · intro _ r hr
        simpa using he r hr
      · intro _; rfl
    · rw [if_neg he]
      constructor
      · intro h; simp at h
      · intro hall
        refine absurd ?_ he
        rw [List.isEmpty_iff, List.filter_eq_nil_iff]
        intro r hr
        simpa using hall r hr

/-- C9 (witness): a concrete clean check on a numeric column. -/
theorem c9_witness :
    (check_domain_constraints exW6 "x" [Val.num 1, Val.num 2]).1 = exW6 ∧
    (check_domain_constraints exW6 "x" [Val.num 1, Val.num 2]).2
      = Except.ok (DomReport.noViolations "x") :=
  ⟨(c9_purely_diagnostic exW6 "x" [Val.num 1, Val.num 2]).1,
   ((c9_purely_diagnostic exW6 "x" [Val.num 1, Val.num 2]).2 0 (by decide)).mpr (by decide)⟩

theorem sum_map_sub_const (l : List ℝ) (c : ℝ) :
    (l.map (fun x => x - c)).sum = l.sum - l.length * c := by
  induction l with
  | nil => simp
  | cons x l ih =>
    simp only [List.map_cons, List.sum_cons, ih, List.length_cons]
    push_cast
    ring

theorem sum_map_div (l : List ℝ) (s : ℝ) :
    (l.map (fun x => x / s)).sum = l.sum / s := by
  induction l with
  | nil => simp
  | cons x l ih => simp [ih, add_div]

theorem meanR_scaled (l : List ℝ) (s : ℝ) :
    meanR (l.map (fun x => (x - meanR l) / s)) = 0 := by
  rcases eq_or_ne l [] with rfl | hl
  · simp [meanR]
  · have hn : (l.length : ℝ) ≠ 0 :=
      Nat.cast_ne_zero.mpr (Nat.pos_iff_ne_zero.mp (List.length_pos.mpr hl))
    have h1 : (l.map (fun x => (x - meanR l) / s)).sum = 0 := by
      have : l.map (fun x => (x - meanR l) / s)
          = (l.map (fun x => x - meanR l)).map (fun x => x / s) := by
        rw [List.map_map]; rfl
      rw [this, sum_map_div, sum_map_sub_const, meanR,
        mul_div_cancel₀ l.sum hn, sub_self, zero_div]
    rw [meanR, h1, zero_div]

theorem varR_nonneg (l : List ℝ) : 0 ≤ varR l := by
  unfold varR
  refine div_nonneg (List.sum_nonneg ?_) (Nat.cast_nonneg _)
  intro x hx
  obtain ⟨y, _, rfl⟩ := List.mem_map.mp hx
  positivity

theorem scaleOf_spec (l : List ℝ) (h : varR l ≠ 0) :
    scaleOf l = Real.sqrt (varR l) ∧ scaleOf l ≠ 0 ∧ (scaleOf l) ^ 2 = varR l := by
  have hpos : 0 < varR l := lt_of_le_of_ne (varR_nonneg l) (Ne.symm h)
  have hs : Real.sqrt (varR l) ≠ 0 := by
    exact ne_of_gt (Real.sqrt_pos.mpr hpos)
  refine ⟨if_neg hs, ?_, ?_⟩
  · rw [scaleOf, if_neg hs]; exact hs
  · rw [scaleOf, if_neg hs, Real.sq_sqrt (le_of_lt hpos)]

theorem varR_scaled (l : List ℝ) (h : varR l ≠ 0) :
    varR (l.map (fun x => (x - meanR l) / scaleOf l)) = 1 := by
  obtain ⟨_, hs0, hsq⟩ := scaleOf_spec l h
  unfold varR
  rw [meanR_scaled]
  have h1 : (l.map (fun x => (x - meanR l) / scaleOf l)).map (fun x => (x - 0) ^ 2)
      = (l.map (fun x => (x - meanR l) ^ 2)).map (fun x => x / (scaleOf l) ^ 2) := by
    rw [List.map_map, List.map_map]
    refine List.map_congr_left (fun x _ => ?_)
    simp only [Function.comp_apply, sub_zero]
    rw [div_pow]
  rw [h1, sum_map_div, List.length_map, div_right_comm]
  show varR l / scaleOf l ^ 2 = 1
  rw [hsq]
  exact div_self h

/-- C5 (counterexample).  A 200 response whose JSON body is the number
`5` has no `data` key, yet `load_api` raises an uncaught `TypeError`
(`'data' in data` on a non-container; only `requests` exceptions are
caught) instead of logging a diagnostic and returning no data. -/
theorem c5_counterexample :
    load_api (HttpOutcome.success 200 (JsonVal.jnum 5))
      = Except.error "TypeError: argument of type is not iterable" ∧
    load_api (HttpOutcome.success 200 (JsonVal.jnum 5)) ≠ Except.ok none := by
  refine ⟨rfl, fun h => ?_⟩
  rw [show load_api (HttpOutcome.success 200 (JsonVal.jnum 5))
      = Except.error "TypeError: argument of type is not iterable" from rfl] at h
  exact Except.noConfusion h

/-- C5 (amended).  `load_api` logs and returns no data on timeout, on
network failure, on a non-200 status, and on a 200 response whose JSON
body supports the membership test but has no `data` key; on a 200
object body whose `data` value builds a frame it returns that frame.
(For scalar bodies the membership test itself raises, and a non-object
body containing `"data"` raises on the subscript — see the
counterexample.) -/
theorem c5_fail_soft :
    load_api HttpOutcome.timeout = Except.ok none ∧
    load_api HttpOutcome.connFailure = Except.ok none ∧
    (∀ (st : Nat) (body : JsonVal), st ≠ 200 →
      load_api (HttpOutcome.success st body) = Except.ok none) ∧
    (∀ body : JsonVal, pyContainsData body = Except.ok false →
      load_api (HttpOutcome.success 200 body) = Except.ok none) ∧
    (∀ (fs : List (String × JsonVal)) (v : JsonVal) (df : Dataset),
      lookupKey fs "data" = some v → toDataFrame v = Except.ok df →
      load_api (HttpOutcome.success 200 (JsonVal.obj fs)) = Except.ok (some df)) := by
  refine ⟨rfl, rfl, ?_, ?_, ?_⟩
  · intro st body hst
    simp [load_api, hst]
  · intro body hb
    simp [load_api, hb]
  · intro fs v df hk ht
    have hany : (fs.any (fun kv => kv.1 == "data")) = true := by
      obtain ⟨kv, hfind⟩ : ∃ kv, fs.find? (fun kv => kv.1 == "data") = some kv := by
        cases hf : fs.find? (fun kv => kv.1 == "data") with
        | none => rw [lookupKey, hf] at hk; exact absurd hk (by simp)
        | some kv => exact ⟨kv, rfl⟩
      have hp := List.find?_some hfind
      exact List.any_eq_true.mpr ⟨kv, List.mem_of_find?_eq_some hfind, hp⟩
    simp [load_api, pyContainsData, hany, hk, ht, Except.map]

/-- C5 (witness): an HTTP 500, a 200 with an object body missing the
key, and a 200 with a well-formed `data` payload. -/
theorem c5_witness :
    load_api (HttpOutcome.success 500 JsonVal.jnull) = Except.ok none ∧
    load_api (HttpOutcome.success 200 (JsonVal.obj [])) = Except.ok none ∧
    load_api (HttpOutcome.success 200 (JsonVal.obj
        [("data", JsonVal.arr [JsonVal.obj [("a", JsonVal.jnum 1)]])]))
      = Except.ok (some { cols := ["a"], dtypes := [DType.numD],
                          rows := [(0, [Val.num 1])] }) :=
  ⟨c5_fail_soft.2.2.1 500 JsonVal.jnull (by decide),
   c5_fail_soft.2.2.2.1 (JsonVal.obj []) rfl,
   c5_fail_soft.2.2.2.2 [("data", JsonVal.arr [JsonVal.obj [("a", JsonVal.jnum 1)]])]
     (JsonVal.arr [JsonVal.obj [("a", JsonVal.jnum 1)]])
     { cols := ["a"], dtypes := [DType.numD], rows := [(0, [Val.num 1])] } rfl rfl⟩

/-! ### Plumbing lemmas for the transformer -/

theorem zipWith_congr_mem {α β γ : Type} (f g : α → β → γ) :
    ∀ (l1 : List α) (l2 : List β), (∀ a ∈ l1, ∀ b ∈ l2, f a b = g a b) →
      List.zipWith f l1 l2 = List.zipWith g l1 l2 := by
  intro l1
  induction l1 with
  | nil => intro l2 _; rfl
  | cons a l1 ih =>
    intro l2 h
    cases l2 with
    | nil => rfl
    | cons b l2 =>
      rw [List.zipWith_cons_cons, List.zipWith_cons_cons,
        h a (List.mem_cons_self ..) b (List.mem_cons_self ..),
        ih l2 (fun a' ha' b' hb' =>
          h a' (List.mem_cons_of_mem _ ha') b' (List.mem_cons_of_mem _ hb'))]

theorem zipWith_fst_map {α β γ : Type} (g : α → γ) :
    ∀ (l1 : List α) (l2 : List β), l1.length = l2.length →
      List.zipWith (fun a _ => g a) l1 l2 = l1.map g := by
  intro l1
  induction l1 with
  | nil => intro l2 _; rfl
  | cons a l1 ih =>
    intro l2 h
    cases l2 with
    | nil => simp at h
    | cons b l2 =>
      rw [List.zipWith_cons_cons, List.map_cons, ih l2 (by simpa using h)]

theorem flatMap_congr_mem {α β : Type} (f g : α → List β) :
    ∀ (l : List α), (∀ a ∈ l, f a = g a) → l.flatMap f = l.flatMap g := by
  intro l
  induction l with
  | nil => intro _; rfl
  | cons a l ih =>
    intro h
    rw [List.flatMap_cons, List.flatMap_cons, h a (List.mem_cons_self ..),
      ih (fun a' ha' => h a' (List.mem_cons_of_mem _ ha'))]

theorem colIdx_getElem :
    ∀ (l : List String) (c : String) (j : Nat), colIdx l c = some j → l[j]? = some c := by
  intro l
  induction l with
  | nil => intro c j h; simp [colIdx] at h
  | cons c0 rest ih =>
    intro c j h
    rw [colIdx] at h
    by_cases he : c0 = c
    · rw [if_pos he] at h
      obtain rfl : (0 : Nat) = j := Option.some.inj h
      simpa using he
    · rw [if_neg he] at h
      cases hr : colIdx rest c with
      | none => rw [hr] at h; simp at h
      | some j' =>
        rw [hr] at h
        obtain rfl : j' + 1 = j := Option.some.inj (by simpa using h)
        simpa using ih c j' hr

theorem colIdx_lt {l : List String} {c : String} {j : Nat}
    (h : colIdx l c = some j) : j < l.length :=
  (List.getElem?_eq_some_iff.mp (colIdx_getElem l c j h)).1

theorem colIdx_append_left :
    ∀ (l1 l2 : List String) (c : String) (j : Nat),
      colIdx l1 c = some j → colIdx (l1 ++ l2) c = some j := by
  intro l1
  induction l1 with
  | nil => intro l2 c j h; simp [colIdx] at h
  | cons c0 rest ih =>
    intro l2 c j h
    rw [colIdx] at h
    rw [List.cons_append, colIdx]
    by_cases he : c0 = c
    · rw [if_pos he] at h ⊢; exact h
    · rw [if_neg he] at h ⊢
      cases hr : colIdx rest c with
      | none => rw [hr] at h; simp at h
      | some j' =>
        rw [hr] at h
        rw [ih l2 c j' hr]
        exact h

theorem colIdx_map_of_unique (f : Nat → String) :
    ∀ (keep : List Nat) (j0 : Nat), j0 ∈ keep → (∀ j ∈ keep, f j = f j0 → j = j0) →
      ∃ k, colIdx (keep.map f) (f j0) = some k ∧ keep[k]? = some j0 := by
  intro keep
  induction keep with
  | nil => intro j0 h; simp at h
  | cons j keep ih =>
    intro j0 hmem huniq
    by_cases he : f j = f j0
    · have hj : j = j0 := huniq j (List.mem_cons_self ..) he
      refine ⟨0, ?_, ?_⟩
      · rw [List.map_cons, colIdx, if_pos he]
      · simpa using hj
    · have hj0 : j0 ∈ keep := by
        rcases List.mem_cons.mp hmem with rfl | h
        · exact absurd rfl he
        · exact h
      obtain ⟨k, hk1, hk2⟩ := ih j0 hj0 (fun j' hj' => huniq j' (List.mem_cons_of_mem _ hj'))
      refine ⟨k + 1, ?_, by simpa using hk2⟩
      rw [List.map_cons, colIdx, if_neg he, hk1]
      rfl

theorem getD_map_embed (x : Option Val) :
    (x.map embedVal).getD RVal.na = embedVal (x.getD Val.na) := by
  cases x <;> rfl

theorem embedR_cols (d : Dataset) : (embedR d).cols = d.cols := rfl

theorem embedR_dtypes (d : Dataset) : (embedR d).dtypes = d.dtypes := rfl

theorem embedR_labels (d : Dataset) : labelsOfR (embedR d) = labelsOf d := by
  simp [embedR, labelsOfR, labelsOf, List.map_map, Function.comp]

theorem embedR_length (d : Dataset) : (embedR d).rows.length = d.rows.length := by
  simp [embedR]

theorem embedR_row (d : Dataset) (i : Nat) :
    (embedR d).rows[i]? = (d.rows[i]?).map (fun r => (r.1, r.2.map embedVal)) := by
  simp [embedR, List.getElem?_map]

theorem applyScaler_cols (d : DatasetR) : (applyScaler d).cols = d.cols := rfl

theorem applyScaler_dtypes (d : DatasetR) : (applyScaler d).dtypes = d.dtypes := rfl

theorem applyScaler_labels (d : DatasetR) : labelsOfR (applyScaler d) = labelsOfR d := by
  simp [applyScaler, labelsOfR, List.map_map, Function.comp]

theorem applyScaler_length (d : DatasetR) :
    (applyScaler d).rows.length = d.rows.length := by
  simp [applyScaler]

theorem applyScaler_row (d : DatasetR) (i : Nat) :
    (applyScaler d).rows[i]? = (d.rows[i]?).map (fun r => (r.1, scaleRow d r.2)) := by
  simp [applyScaler, List.getElem?_map]

theorem colCellsR_applyScaler_num (d : DatasetR) (j : Nat) (hj : j < d.cols.length)
    (hty : d.dtypes[j]? = some DType.numD) :
    colCellsR (applyScaler d) j = (colCellsR d j).map (scaleCell d j) := by
  unfold colCellsR applyScaler scaleRow
  simp only [List.map_map]
  refine List.map_congr_left (fun r _ => ?_)
  simp only [Function.comp, List.getElem?_map, List.getElem?_range hj,
    Option.map_some', Option.getD_some, hty, if_pos rfl, if_true]

theorem isNumR_scaleCell (d : DatasetR) (j : Nat) (v : RVal) :
    isNumR (scaleCell d j v) = isNumR v := by
  cases v <;> rfl

theorem filter_map_pres {α : Type} (f : α → α) (p : α → Bool)
    (hf : ∀ a, p (f a) = p a) :
    ∀ l : List α, (l.map f).filter p = (l.filter p).map f := by
  intro l
  induction l with
  | nil => rfl
  | cons a l ih =>
    rw [List.map_cons, List.filter_cons, List.filter_cons, hf a]
    by_cases hp : p a = true
    · rw [if_pos hp, if_pos hp, List.map_cons, ih]
    · rw [if_neg hp, if_neg hp, ih]

theorem colPresent_applyScaler (d : DatasetR) (j : Nat) (hj : j < d.cols.length)
    (hty : d.dtypes[j]? = some DType.numD) :
    colPresentR (applyScaler d) j = (colPresentR d j).map
      (fun x => (x - meanR (colPresentR d j)) / scaleOf (colPresentR d j)) := by
  unfold colPresentR
  rw [colCellsR_applyScaler_num d j hj hty,
    filter_map_pres _ _ (isNumR_scaleCell d j), List.map_map, List.map_map]
  refine List.map_congr_left (fun v hv => ?_)
  have hnum : isNumR v = true := (List.mem_filter.mp hv).2
  cases v with
  | num x => rfl
  | str s => simp [isNumR] at hnum
  | na => simp [isNumR] at hnum

theorem colCellsR_applyScaler_obj (d : DatasetR) (j : Nat) (hj : j < d.cols.length)
    (hty : d.dtypes[j]? = some DType.objD) :
    colCellsR (applyScaler d) j = colCellsR d j := by
  unfold colCellsR applyScaler scaleRow
  rw [List.map_map]
  refine List.map_congr_left (fun r _ => ?_)
  simp only [Function.comp_apply]
  rw [List.getElem?_map, List.getElem?_range hj]
  simp [hty]

theorem dropObj_cols (d : DatasetR) :
    (dropObjCols d).cols = (keepIdxR d).map (fun j => d.cols[j]?.getD "") := rfl

theorem dropObj_labels (d : DatasetR) : labelsOfR (dropObjCols d) = labelsOfR d := by
  simp [dropObjCols, labelsOfR, List.map_map, Function.comp]

theorem dropObj_length (d : DatasetR) : (dropObjCols d).rows.length = d.rows.length := by
  simp [dropObjCols]

theorem dropObj_row (d : DatasetR) (i : Nat) :
    (dropObjCols d).rows[i]? = (d.rows[i]?).map (fun r => (r.1, dropRow d r.2)) := by
  simp [dropObjCols, List.getElem?_map]

theorem colCellsR_dropObj (d : DatasetR) (k j0 : Nat) (hk : (keepIdxR d)[k]? = some j0) :
    colCellsR (dropObjCols d) k = colCellsR d j0 := by
  unfold colCellsR dropObjCols dropRow
  rw [List.map_map]
  refine List.map_congr_left (fun r _ => ?_)
  simp only [Function.comp_apply]
  rw [List.getElem?_map, hk]
  rfl

theorem encodeOneHotQ_labels (d : Dataset) :
    labelsOfR (encodeOneHotQ d) = List.range d.rows.length := by
  simp [encodeOneHotQ, labelsOfR, List.enum_map_fst]

theorem encodeOneHotQ_length (d : Dataset) :
    (encodeOneHotQ d).rows.length = d.rows.length := by
  simp [encodeOneHotQ]

theorem encodeOneHotQ_row (d : Dataset) (i : Nat) :
    (encodeOneHotQ d).rows[i]? = (d.rows[i]?).map (fun r => (i, encRowQ d r.2)) := by
  simp only [encodeOneHotQ]
  rw [List.getElem?_enum, List.getElem?_map]
  cases d.rows[i]? <;> rfl

theorem concatAligned_fast (a b : DatasetR) (h : a.rows.map Prod.fst = b.rows.map Prod.fst) :
    concatAligned a b =
      { cols := a.cols ++ b.cols, dtypes := a.dtypes ++ b.dtypes,
        rows := List.zipWith (fun ra rb => (ra.1, ra.2 ++ rb.2)) a.rows b.rows } := by
  simp [concatAligned, h]

theorem transform_data_ok {d : Dataset} {t : DatasetR × DatasetR}
    (h : transform_data d = Except.ok t) :
    t = (applyScaler (embedR d),
         concatAligned (dropObjCols (applyScaler (embedR d))) (encodeOneHotQ d)) ∧
    d.rows ≠ [] ∧ numericCols d ≠ [] ∧ mixedObjCol d = false := by
  unfold transform_data at h
  by_cases h1 : (d.rows.isEmpty = true ∨ (numericCols d).isEmpty = true)
  · rw [if_pos h1] at h
    exact absurd h (by simp)
  · rw [if_neg h1] at h
    by_cases h2 : mixedObjCol d = true
    · rw [if_pos h2] at h
      exact absurd h (by simp)
    · rw [if_neg h2] at h
      push_neg at h1
      obtain ⟨ha, hb⟩ := h1
      refine ⟨(Option.some.inj ?_).symm, ?_, ?_, ?_⟩
      · simpa using h
      · simpa [List.isEmpty_iff] using ha
      · simpa [List.isEmpty_iff] using hb
      · simpa using h2

theorem transform_out_present_col (d : Dataset) (hw : wf d) (hld : labelsDefault d)
    {c : String} {j0 : Nat} (hj : colIdx d.cols c = some j0)
    (hty : d.dtypes[j0]? = some DType.numD)
    {t : DatasetR × DatasetR} (ht : transform_data d = Except.ok t) :
    colPresentN (Prod.snd t) c = (colPresentR (embedR d) j0).map
      (fun x => (x - meanR (colPresentR (embedR d) j0)) / scaleOf (colPresentR (embedR d) j0)) := by
  obtain ⟨hteq, _, _, _⟩ := transform_data_ok ht
  obtain ⟨hdlen, hnod, hrlen⟩ := hw
  have hjlt : j0 < d.cols.length := colIdx_lt hj
  have h1 : labelsOfR (dropObjCols (applyScaler (embedR d))) = List.range d.rows.length := by
    rw [dropObj_labels, applyScaler_labels, embedR_labels]
    exact hld
  have h2 : labelsOfR (encodeOneHotQ d) = List.range d.rows.length :=
    encodeOneHotQ_labels d
  have hlabD : (dropObjCols (applyScaler (embedR d))).rows.map Prod.fst
      = (encodeOneHotQ d).rows.map Prod.fst :=
    h1.trans h2.symm
  have hfast := concatAligned_fast _ _ hlabD
  have hj0mem : j0 ∈ keepIdxR (applyScaler (embedR d)) := by
    refine List.mem_filter.mpr ⟨List.mem_range.mpr hjlt, ?_⟩
    show (!((applyScaler (embedR d)).dtypes[j0]? == some DType.objD)) = true
    rw [applyScaler_dtypes, embedR_dtypes, hty]
    rfl
  have huniq : ∀ j ∈ keepIdxR (applyScaler (embedR d)),
      (fun j => d.cols[j]?.getD "") j = (fun j => d.cols[j]?.getD "") j0 → j = j0 := by
    intro j hjk he
    have hjlt2 : j < d.cols.length := by
      have := (List.mem_filter.mp hjk).1
      exact List.mem_range.mp this
    have e1 : d.cols[j]? = some (d.cols.get ⟨j, hjlt2⟩) := by
      rw [List.getElem?_eq_getElem hjlt2]; rfl
    have e2 : d.cols[j0]? = some (d.cols.get ⟨j0, hjlt⟩) := by
      rw [List.getElem?_eq_getElem hjlt]; rfl
    refine List.getElem?_inj hjlt2 hnod ?_
    rw [e1, e2]
    simp only [e1, e2, Option.getD_some] at he
    exact congrArg some he
  obtain ⟨k, hk1, hk2⟩ :=
    colIdx_map_of_unique (fun j => d.cols[j]?.getD "") (keepIdxR (applyScaler (embedR d)))
      j0 hj0mem huniq
  have hfj0 : d.cols[j0]?.getD "" = c := by
    have := colIdx_getElem d.cols c j0 hj
    simp [this]
  rw [hfj0] at hk1
  have hcolD : colIdx (dropObjCols (applyScaler (embedR d))).cols c = some k := hk1
  have hcol2 : colIdx ((dropObjCols (applyScaler (embedR d))).cols
      ++ (encodeOneHotQ d).cols) c = some k :=
    colIdx_append_left _ _ _ _ hcolD
  have hklt : k < (keepIdxR (applyScaler (embedR d))).length :=
    (List.getElem?_eq_some_iff.mp hk2).1
  have hrowsD : ∀ ra ∈ (dropObjCols (applyScaler (embedR d))).rows,
      (Prod.snd ra).length = (keepIdxR (applyScaler (embedR d))).length := by
    intro ra hra
    obtain ⟨r0, _, rfl⟩ := List.mem_map.mp hra
    simp [dropRow]
  have hDlen : (dropObjCols (applyScaler (embedR d))).rows.length
      = (encodeOneHotQ d).rows.length := by
    rw [dropObj_length, applyScaler_length, embedR_length, encodeOneHotQ_length]
  have hcells : colCellsR (concatAligned (dropObjCols (applyScaler (embedR d)))
      (encodeOneHotQ d)) k
      = colCellsR (applyScaler (embedR d)) j0 := by
    rw [hfast]
    show (List.zipWith _ _ _).map _ = _
    rw [List.map_zipWith]
    rw [zipWith_congr_mem _ (fun ra rb => (Prod.snd ra)[k]?.getD RVal.na) _ _
      (fun ra hra rb _ => by
        simp only []
        rw [List.getElem?_append_left (by rw [hrowsD ra hra]; exact hklt)])]
    rw [zipWith_fst_map _ _ _ hDlen]
    exact colCellsR_dropObj _ k j0 hk2
  rw [hteq]
  show colPresentN (concatAligned _ _) c = _
  have hcolsEq : (concatAligned (dropObjCols (applyScaler (embedR d)))
      (encodeOneHotQ d)).cols
      = (dropObjCols (applyScaler (embedR d))).cols
        ++ (encodeOneHotQ d).cols := by
    rw [hfast]
  rw [colPresentN, hcolsEq, hcol2]
  show colPresentR _ k = _
  have : colPresentR (concatAligned (dropObjCols (applyScaler (embedR d)))
      (encodeOneHotQ d)) k
      = colPresentR (applyScaler (embedR d)) j0 := by
    unfold colPresentR
    rw [hcells]
  rw [this]
  exact colPresent_applyScaler (embedR d) j0 hjlt hty

/-- C8 (counterexample).  The general half of the claim fails: for the
zero-variance numeric column `[5, 5]` of `exC8`, `StandardScaler`
replaces a zero scale by 1, so the transformed column is `[0, 0]` —
mean 0, but variance 0, not 1. -/
theorem c8_counterexample :
    (transform_data exC8).map (fun t => colVarN (Prod.snd t) "a") = Except.ok 0 ∧
    (0 : ℝ) ≠ 1 := by
  have hok : transform_data exC8 = Except.ok (applyScaler (embedR exC8),
      concatAligned (dropObjCols (applyScaler (embedR exC8))) (encodeOneHotQ exC8)) := by
    unfold transform_data
    rw [if_neg (by decide), if_neg (by decide)]
  have hcol := @transform_out_present_col exC8 (by decide) (by decide) "a" 0
    (by decide) rfl _ hok
  have hnum : colPresentR (embedR exC8) 0 = [(5:ℝ), 5] := by
    norm_num [colPresentR, colCellsR, isNumR, embedR, exC8, rvalToR, embedVal]
  refine ⟨?_, by norm_num⟩
  rw [hok]
  show Except.ok (colVarN _ "a") = Except.ok 0
  have : colVarN (Prod.snd (applyScaler (embedR exC8),
      concatAligned (dropObjCols (applyScaler (embedR exC8))) (encodeOneHotQ exC8))) "a"
      = 0 := by
    rw [colVarN, hcol, hnum]
    norm_num [meanR, varR]
  rw [this]

/-- C8 (amended).  Every originally-numeric column whose present
(non-missing) values have nonzero variance is exactly zero-mean and
unit-variance (hence unit standard deviation) over its present values
in the transformed output — missing cells are maintained by the scaler
and skipped by the column statistics — provided the frame is fresh
(default row labels, so the final concatenation does not realign).
Zero-variance columns come out as all zeros (variance 0), see the
counterexample. -/
theorem c8_standardized : ∀ (d : Dataset) (t : DatasetR × DatasetR) (c : String) (j0 : Nat),
    wf d → labelsDefault d → transform_data d = Except.ok t →
    colIdx d.cols c = some j0 → d.dtypes[j0]? = some DType.numD →
    varR (colPresentR (embedR d) j0) ≠ 0 →
    colMeanN (Prod.snd t) c = 0 ∧ colVarN (Prod.snd t) c = 1 ∧
      Real.sqrt (colVarN (Prod.snd t) c) = 1 := by
  intro d t c j0 hw hld ht hj hty hvar
  have hcol := transform_out_present_col d hw hld hj hty ht
  refine ⟨?_, ?_, ?_⟩
  · rw [colMeanN, hcol]
    exact meanR_scaled _ _
  · rw [colVarN, hcol]
    exact varR_scaled _ hvar
  · rw [colVarN, hcol, varR_scaled _ hvar]
    exact Real.sqrt_one

/-- C8 (witness): the spec's example column `[1, 2, 3]` (variance 2/3)
is standardised to mean 0 and variance 1. -/
theorem c8_witness :
    (transform_data exC8w).map (fun t => colMeanN (Prod.snd t) "a") = Except.ok 0 ∧
    (transform_data exC8w).map (fun t => colVarN (Prod.snd t) "a") = Except.ok 1 := by
  have hok : transform_data exC8w = Except.ok (applyScaler (embedR exC8w),
      concatAligned (dropObjCols (applyScaler (embedR exC8w))) (encodeOneHotQ exC8w)) := by
    unfold transform_data
    rw [if_neg (by decide), if_neg (by decide)]
  have hnum : colPresentR (embedR exC8w) 0 = [(1:ℝ), 2, 3] := by
    norm_num [colPresentR, colCellsR, isNumR, embedR, exC8w, rvalToR, embedVal]
  have hvar : varR (colPresentR (embedR exC8w) 0) ≠ 0 := by
    rw [hnum]
    norm_num [varR, meanR]
  have h := c8_standardized exC8w _ "a" 0 (by decide) (by decide) hok (by decide) rfl hvar
  constructor
  · rw [hok]
    show Except.ok (colMeanN _ "a") = Except.ok 0
    rw [h.1]
  · rw [hok]
    show Except.ok (colVarN _ "a") = Except.ok 1
    rw [h.2.1]

/-! ### The encoder's view of the scaled frame -/

theorem scaleRow_obj_cell (dR : DatasetR) (cells : List RVal) (j : Nat)
    (hj : j < dR.cols.length) (hty : dR.dtypes[j]? = some DType.objD) :
    (scaleRow dR cells)[j]? = some (cells[j]?.getD RVal.na) := by
  unfold scaleRow
  rw [List.getElem?_map, List.getElem?_range hj]
  simp [hty]

theorem scaleRow_num_cell (dR : DatasetR) (cells : List RVal) (j : Nat)
    (hj : j < dR.cols.length) (hty : dR.dtypes[j]? = some DType.numD) :
    (scaleRow dR cells)[j]? = some (scaleCell dR j (cells[j]?.getD RVal.na)) := by
  unfold scaleRow
  rw [List.getElem?_map, List.getElem?_range hj]
  simp [hty]

theorem numScaleVal_embed (dR : DatasetR) (j : Nat) (v : Val) :
    scaleCell dR j (embedVal v) = numScaleVal dR j v := by
  cases v <;> rfl

theorem keepIdx_scaled (d : Dataset) : keepIdxR (applyScaler (embedR d)) = keepIdxQ d := rfl

theorem mem_objIdxQ {d : Dataset} {j : Nat} (h : j ∈ objIdxQ d) :
    j < d.cols.length ∧ d.dtypes[j]? = some DType.objD := by
  obtain ⟨h1, h2⟩ := List.mem_filter.mp h
  exact ⟨List.mem_range.mp h1, by simpa using h2⟩

theorem mem_keepIdxQ {d : Dataset} {j : Nat} (hw : wf d) (h : j ∈ keepIdxQ d) :
    j < d.cols.length ∧ d.dtypes[j]? = some DType.numD := by
  obtain ⟨h1, h2⟩ := List.mem_filter.mp h
  have hj : j < d.cols.length := List.mem_range.mp h1
  have hne : ¬ (d.dtypes[j]? = some DType.objD) := by simpa using h2
  have hlt : j < d.dtypes.length := by rw [hw.1]; exact hj
  refine ⟨hj, ?_⟩
  have he : d.dtypes[j]? = some (d.dtypes.get ⟨j, hlt⟩) := by
    rw [List.getElem?_eq_getElem hlt]; rfl
  cases hdt : d.dtypes.get ⟨j, hlt⟩ with
  | numD => rw [he, hdt]
  | objD => exact absurd (by rw [he, hdt]) hne

theorem dropRow_scaleRow (d : Dataset) (hw : wf d) (cells : List Val) :
    dropRow (applyScaler (embedR d)) (scaleRow (embedR d) (cells.map embedVal))
      = scaledRowQ d cells := by
  unfold dropRow scaledRowQ
  rw [keepIdx_scaled]
  refine List.map_congr_left (fun j hj => ?_)
  obtain ⟨hjlt, hty⟩ := mem_keepIdxQ hw hj
  rw [scaleRow_num_cell (embedR d) _ j hjlt hty, Option.getD_some, List.getElem?_map,
    getD_map_embed, numScaleVal_embed]

/-- Shared description of the transformed frame on a fresh-labelled
input: its columns are the retained numeric names followed by the
generated indicator names, it has one row per input row, and row `i`
holds the scaled numeric cells of input row `i` followed by its
indicator cells.  (On a fresh frame the final `pd.concat` takes the
identical-index fast path.) -/
theorem transform_output_rows (d : Dataset) (hw : wf d) (hld : labelsDefault d)
    {t : DatasetR × DatasetR} (ht : transform_data d = Except.ok t) :
    (Prod.snd t).cols = nonObjNamesQ d ++ featureNamesV d ∧
    (Prod.snd t).rows.length = d.rows.length ∧
    ∀ (i : Nat) (r : Nat × List Val), d.rows[i]? = some r →
      (Prod.snd t).rows[i]? = some (i, scaledRowQ d (Prod.snd r) ++ encRowQ d (Prod.snd r)) := by
  obtain ⟨hteq, _, _, _⟩ := transform_data_ok ht
  have h1 : labelsOfR (dropObjCols (applyScaler (embedR d))) = List.range d.rows.length := by
    rw [dropObj_labels, applyScaler_labels, embedR_labels]
    exact hld
  have h2 : labelsOfR (encodeOneHotQ d) = List.range d.rows.length :=
    encodeOneHotQ_labels d
  have hlabD : (dropObjCols (applyScaler (embedR d))).rows.map Prod.fst
      = (encodeOneHotQ d).rows.map Prod.fst :=
    h1.trans h2.symm
  have hfast := concatAligned_fast _ _ hlabD
  have hDlen : (dropObjCols (applyScaler (embedR d))).rows.length = d.rows.length := by
    rw [dropObj_length, applyScaler_length, embedR_length]
  have hElen : (encodeOneHotQ d).rows.length = d.rows.length := encodeOneHotQ_length d
  rw [hteq]
  refine ⟨?_, ?_, ?_⟩
  · show (concatAligned _ _).cols = _
    rw [hfast]
    rfl
  · show (concatAligned _ _).rows.length = _
    rw [hfast]
    show (List.zipWith _ _ _).length = _
    rw [List.length_zipWith, hDlen, hElen, Nat.min_self]
  · intro i r hr
    have hi : i < d.rows.length := (List.getElem?_eq_some_iff.mp hr).1
    have hfst : r.1 = i := by
      have e1 : (d.rows.map Prod.fst)[i]? = some r.1 := by
        rw [List.getElem?_map, hr]; rfl
      have e2 : (d.rows.map Prod.fst)[i]? = some i := by
        rw [show d.rows.map Prod.fst = List.range d.rows.length from hld,
          List.getElem?_range hi]
      exact Option.some.inj (e1.symm.trans e2)
    have hDrow : (dropObjCols (applyScaler (embedR d))).rows[i]?
        = some (r.1, dropRow (applyScaler (embedR d))
            (scaleRow (embedR d) (r.2.map embedVal))) := by
      rw [dropObj_row, applyScaler_row, embedR_row, hr]
      rfl
    have hErow : (encodeOneHotQ d).rows[i]? = some (i, encRowQ d r.2) := by
      rw [encodeOneHotQ_row, hr]
      rfl
    show (concatAligned _ _).rows[i]? = _
    rw [hfast]
    show (List.zipWith _ _ _)[i]? = _
    rw [List.getElem?_zipWith, hDrow, hErow]
    simp only [Option.map_some', Option.bind_some]
    rw [dropRow_scaleRow d hw, hfst]

/-- C3 (amended).  Provided the input frame carries the default row
labels `0..n-1` (a freshly built frame), `transform_data` replaces
each categorical column with one indicator column per distinct
observed category (missing values forming their own category) and
preserves row order: row `i` of the output is the scaled numeric cells
of input row `i` — missing numeric cells staying missing — followed by
its indicator cells.  On a frame whose labels have gaps (exactly what
cleaning produces after dropping rows) this fails, see the
counterexample. -/
theorem c3_one_hot (d : Dataset) (hw : wf d) (hld : labelsDefault d)
    {t : DatasetR × DatasetR} (ht : transform_data d = Except.ok t) :
    (Prod.snd t).cols = nonObjNamesQ d ++ featureNamesV d ∧
    (Prod.snd t).rows.length = d.rows.length ∧
    ∀ (i : Nat) (r : Nat × List Val), d.rows[i]? = some r →
      (Prod.snd t).rows[i]? = some (i, scaledRowQ d (Prod.snd r) ++ encRowQ d (Prod.snd r)) :=
  transform_output_rows d hw hld ht

/-- C3 (counterexample).  On a frame whose labels have a gap (`exC3`,
labels 0 and 2 — exactly what cleaning leaves behind after dropping a
row), the final `pd.concat` aligns the encoded block (fresh labels
0, 1) against the frame's labels, producing three rows out of two
inputs; row order is not preserved and the claim's row-for-row
correspondence fails. -/
theorem c3_counterexample : ¬ transformRowAligned exC3 := by
  intro h
  have hok : transform_data exC3 = Except.ok (applyScaler (embedR exC3),
      concatAligned (dropObjCols (applyScaler (embedR exC3))) (encodeOneHotQ exC3)) := by
    unfold transform_data
    rw [if_neg (by decide), if_neg (by decide)]
  obtain ⟨hlen, _⟩ := h _ hok
  have hlabD : (dropObjCols (applyScaler (embedR exC3))).rows.map Prod.fst = [0, 2] := by
    have := dropObj_labels (applyScaler (embedR exC3))
    rw [labelsOfR] at this
    rw [this, applyScaler_labels, embedR_labels]
    rfl
  have hlabE : (encodeOneHotQ exC3).rows.map Prod.fst = [0, 1] := by
    have := encodeOneHotQ_labels exC3
    rw [labelsOfR] at this
    rw [this]
    rfl
  have hrows : (concatAligned (dropObjCols (applyScaler (embedR exC3)))
      (encodeOneHotQ exC3)).rows.length = 3 := by
    unfold concatAligned
    rw [hlabD, hlabE, if_neg (by decide)]
    rw [List.length_map]
    rfl
  rw [hrows] at hlen
  exact absurd hlen (by decide)

/-- C3 (witness, for the amended claim `c3_one_hot`).  The spec's
`[x, y, x]` column yields exactly the two indicator columns `c_x`,
`c_y`; rows 1 and 3 carry `(1, 0)` and row 2 carries `(0, 1)`, and on
this fresh frame the output has one row per input row, scaled numerics
first. -/
theorem c3_witness :
    featureNamesV exC3w = ["c_x", "c_y"] ∧
    encRowQ exC3w [Val.num 0, Val.str "x"] = [RVal.num 1, RVal.num 0] ∧
    encRowQ exC3w [Val.num 0, Val.str "y"] = [RVal.num 0, RVal.num 1] ∧
    (transform_data exC3w).map (fun t => (Prod.snd t).cols)
      = Except.ok (nonObjNamesQ exC3w ++ featureNamesV exC3w) ∧
    (transform_data exC3w).map (fun t => (Prod.snd t).rows.length) = Except.ok 3 ∧
    (transform_data exC3w).map (fun t => (Prod.snd t).rows[0]?)
      = Except.ok (some (0, scaledRowQ exC3w [Val.num 0, Val.str "x"]
          ++ encRowQ exC3w [Val.num 0, Val.str "x"])) ∧
    (transform_data exC3w).map (fun t => (Prod.snd t).rows[1]?)
      = Except.ok (some (1, scaledRowQ exC3w [Val.num 0, Val.str "y"]
          ++ encRowQ exC3w [Val.num 0, Val.str "y"])) := by
  have hok : transform_data exC3w = Except.ok (applyScaler (embedR exC3w),
      concatAligned (dropObjCols (applyScaler (embedR exC3w))) (encodeOneHotQ exC3w)) := by
    unfold transform_data
    rw [if_neg (by decide), if_neg (by decide)]
  have h := c3_one_hot exC3w (by decide) (by decide) hok
  have hobj : objIdxQ exC3w = [1] := by decide
  have hcat : categoriesV exC3w 1 = [Val.str "x", Val.str "y"] := by
    rw [categoriesV,
      show (exC3w.rows.map (fun r => r.2[1]?.getD Val.na)).eraseDups
        = [Val.str "x", Val.str "y"] from by decide]
    rw [show ([Val.str "x", Val.str "y"].filter (fun v => !(v == Val.na)))
        = [Val.str "x", Val.str "y"] from by decide]
    rw [if_neg (by decide), List.append_nil]
    simp [List.insertionSort, List.orderedInsert, valLeB]
    decide
  have hfeat : featureNamesV exC3w = ["c_x", "c_y"] := by
    rw [featureNamesV, hobj, List.flatMap_cons, List.flatMap_nil, hcat]
    rfl
  have hx : encRowQ exC3w [Val.num 0, Val.str "x"] = [RVal.num 1, RVal.num 0] := by
    rw [encRowQ, hobj, List.flatMap_cons, List.flatMap_nil, hcat]
    simp
  have hy : encRowQ exC3w [Val.num 0, Val.str "y"] = [RVal.num 0, RVal.num 1] := by
    rw [encRowQ, hobj, List.flatMap_cons, List.flatMap_nil, hcat]
    simp
  refine ⟨hfeat, hx, hy, ?_, ?_, ?_, ?_⟩
  · rw [hok]
    show Except.ok _ = Except.ok _
    exact congrArg Except.ok h.1
  · rw [hok]
    show Except.ok _ = Except.ok _
    exact congrArg Except.ok (h.2.1.trans rfl)
  · rw [hok]
    show Except.ok _ = Except.ok _
    exact congrArg Except.ok (h.2.2 0 (0, [Val.num 0, Val.str "x"]) (by decide))
  · rw [hok]
    show Except.ok _ = Except.ok _
    exact congrArg Except.ok (h.2.2 1 (1, [Val.num 0, Val.str "y"]) (by decide))

/-! ### C1: the cleaned frame is mutated in place by the transform -/

theorem perform_analysis_eq (corr : String → Option String) (d : Dataset) :
    perform_analysis corr d = transform_data (cleanSort corr d) := rfl

theorem wf_mapObjCells (f : Val → Val) (d : Dataset) (h : wf d) : wf (mapObjCells f d) := by
  obtain ⟨h1, h2, h3⟩ := h
  refine ⟨h1, h2, ?_⟩
  intro r hr
  simp only [mapObjCells, List.mem_map] at hr
  obtain ⟨r0, hr0, rfl⟩ := hr
  show (List.zipWith _ _ _).length = _
  rw [List.length_zipWith, h1, h3 r0 hr0, Nat.min_self]
  rfl

theorem wf_normPass (corr : String → Option String) (d : Dataset) (h : wf d) :
    wf (normPass corr d) :=
  wf_mapObjCells _ _ (wf_mapObjCells _ _ h)

theorem wf_clean (corr : String → Option String) (d : Dataset) (h : wf d) :
    wf (clean_data corr d) :=
  wf_normPass _ _ (wf_dropna _ (wf_drop_duplicates _ h))

theorem wf_sort_data (d : Dataset) (c : String) (b : Bool) (h : wf d) :
    wf (sort_data d c b) := by
  obtain ⟨h1, h2, h3⟩ := h
  unfold sort_data
  cases hc : colIdx d.cols c with
  | none => exact ⟨h1, h2, h3⟩
  | some j =>
    refine ⟨h1, h2, ?_⟩
    intro r hr
    simp only [List.mem_append] at hr
    rcases hr with hr | hr
    · have hperm := List.perm_insertionSort
        (fun r1 r2 => (if b then valLeB (r1.2[j]?.getD Val.na) (r2.2[j]?.getD Val.na)
          else valLeB (r2.2[j]?.getD Val.na) (r1.2[j]?.getD Val.na)) = true)
        (d.rows.filter (fun r => !(r.2[j]?.getD Val.na == Val.na)))
      have hmem := hperm.mem_iff.mp hr
      exact h3 r ((List.filter_sublist _).subset hmem)
    · exact h3 r ((List.filter_sublist _).subset hr)

theorem wf_cleanSort (corr : String → Option String) (d : Dataset) (h : wf d) :
    wf (cleanSort corr d) := by
  unfold cleanSort
  by_cases hn : "name" ∈ (clean_data corr d).cols
  · rw [if_pos hn]
    exact wf_sort_data _ _ _ (wf_clean corr d h)
  · rw [if_neg hn]
    exact wf_clean corr d h

/-- C1 (counterexample).  On `exC1` (numeric column `[0, 2]`, object
column, no `name` column) the pair returned by `perform_analysis` is
not independent: line 75's in-place column assignment rescales the
cleaned frame's numeric column to `[-1, 1]`, so the returned `cleaned`
is not the Cleaner's output. -/
theorem c1_counterexample : ¬ cleanedIndependent corrNone exC1 := by
  intro h
  have hcs : cleanSort corrNone exC1 = exC1 := by decide
  have hok : perform_analysis corrNone exC1 = Except.ok (applyScaler (embedR exC1),
      concatAligned (dropObjCols (applyScaler (embedR exC1))) (encodeOneHotQ exC1)) := by
    rw [perform_analysis_eq, hcs]
    unfold transform_data
    rw [if_neg (by decide), if_neg (by decide)]
  have heq := h _ hok
  rw [hcs] at heq
  have hrow := congrArg (fun X : DatasetR => X.rows[0]?) heq
  simp only [] at hrow
  rw [applyScaler_row, embedR_row,
    show exC1.rows[0]? = some (0, [Val.num 0, Val.str "p"]) from rfl] at hrow
  simp only [Option.map_some'] at hrow
  have hcells := congrArg (fun X : Nat × List RVal => X.2[0]?) (Option.some.inj hrow)
  simp only [] at hcells
  rw [scaleRow_num_cell (embedR exC1) _ 0 (by decide) rfl] at hcells
  have hnum : colPresentR (embedR exC1) 0 = [(0:ℝ), 2] := by
    norm_num [colPresentR, colCellsR, isNumR, embedR, exC1, rvalToR, embedVal]
  have hmean : meanR (colPresentR (embedR exC1) 0) = 1 := by
    rw [hnum]; norm_num [meanR]
  have hvar : varR (colPresentR (embedR exC1) 0) = 1 := by
    rw [hnum]; norm_num [varR, meanR]
  have hscale : scaleOf (colPresentR (embedR exC1) 0) = 1 := by
    rw [scaleOf, hvar, Real.sqrt_one]
    norm_num
  rw [show ([Val.num 0, Val.str "p"].map embedVal)[0]?.getD RVal.na
      = RVal.num ((0:ℚ):ℝ) from rfl] at hcells
  simp only [scaleCell, Option.some.injEq, List.getElem?_map] at hcells
  rw [hmean, hscale] at hcells
  norm_num [embedVal] at hcells

/-- C1 (amended).  The two frames returned by `perform_analysis` are
not independent: the `cleaned` component is exactly the Cleaner's
output (plus the optional sort) with every numeric cell rescaled in
place by the standardisation step — columns, dtypes, labels and object
cells are unchanged, missing numeric cells stay missing, and each
present numeric cell holds its value standardised against the column's
present values.  The categorical columns are not replaced in it. -/
theorem c1_mutation : ∀ (corr : String → Option String) (d : Dataset)
    (p : DatasetR × DatasetR), wf d → perform_analysis corr d = Except.ok p →
    Prod.fst p = applyScaler (embedR (cleanSort corr d)) ∧
    (Prod.fst p).cols = (cleanSort corr d).cols ∧
    (Prod.fst p).dtypes = (cleanSort corr d).dtypes ∧
    labelsOfR (Prod.fst p) = labelsOf (cleanSort corr d) ∧
    (∀ (i : Nat) (r : Nat × List Val), (cleanSort corr d).rows[i]? = some r →
      ∃ cells : List RVal, (Prod.fst p).rows[i]? = some (r.1, cells) ∧
        (∀ j : Nat, (cleanSort corr d).dtypes[j]? = some DType.objD →
          cells[j]? = some (embedVal ((Prod.snd r)[j]?.getD Val.na))) ∧
        (∀ j : Nat, (cleanSort corr d).dtypes[j]? = some DType.numD →
          cells[j]? = some (numScaleVal (embedR (cleanSort corr d)) j
            ((Prod.snd r)[j]?.getD Val.na)))) := by
  intro corr d p hw hp
  rw [perform_analysis_eq] at hp
  obtain ⟨hteq, _, _, _⟩ := transform_data_ok hp
  have hw2 : wf (cleanSort corr d) := wf_cleanSort corr d hw
  have hfst : Prod.fst p = applyScaler (embedR (cleanSort corr d)) := by rw [hteq]
  refine ⟨hfst, by rw [hfst]; rfl, by rw [hfst]; rfl, ?_, ?_⟩
  · rw [hfst, applyScaler_labels, embedR_labels]
  · intro i r hr
    refine ⟨scaleRow (embedR (cleanSort corr d)) (r.2.map embedVal), ?_, ?_, ?_⟩
    · rw [hfst, applyScaler_row, embedR_row, hr]
      rfl
    · intro j hj
      have hjlt : j < (cleanSort corr d).cols.length := by
        rw [← hw2.1]
        exact (List.getElem?_eq_some_iff.mp hj).1
      rw [scaleRow_obj_cell (embedR (cleanSort corr d)) _ j hjlt hj,
        List.getElem?_map, getD_map_embed]
    · intro j hj
      have hjlt : j < (cleanSort corr d).cols.length := by
        rw [← hw2.1]
        exact (List.getElem?_eq_some_iff.mp hj).1
      rw [scaleRow_num_cell (embedR (cleanSort corr d)) _ j hjlt hj,
        List.getElem?_map, getD_map_embed, numScaleVal_embed]

/-- C1 (witness): on `exC1` the returned `cleaned` frame is the scaled
clean frame. -/
theorem c1_witness :
    (perform_analysis corrNone exC1).map Prod.fst
      = Except.ok (applyScaler (embedR (cleanSort corrNone exC1))) := by
  have hcs : cleanSort corrNone exC1 = exC1 := by decide
  have hok : perform_analysis corrNone exC1 = Except.ok (applyScaler (embedR exC1),
      concatAligned (dropObjCols (applyScaler (embedR exC1))) (encodeOneHotQ exC1)) := by
    rw [perform_analysis_eq, hcs]
    unfold transform_data
    rw [if_neg (by decide), if_neg (by decide)]
  have h := c1_mutation corrNone exC1 _ (by decide) hok
  rw [hok]
  show Except.ok _ = Except.ok _
  exact congrArg Except.ok h.1

/-! ### C10: a frame with no categorical column is transformed, not rejected -/

